import Mathlib

/-!
Verification development for the `aiographql-client` GraphQL client library.

The Python sources are shallowly embedded: JSON documents become an inductive
`Json` type, Python dictionaries become association lists (first binding wins
on lookup, `pyUpdate` models `dict` merge / `dict.update`), effectful methods
become pure functions returning explicit run/outcome records, and raising
methods return `Except`.
-/

set_option autoImplicit false

/-- A JSON value, as decoded by `ujson` / `aiohttp`'s response decoding. -/
inductive Json where
  | str : String → Json
  | num : Int → Json
  | bool : Bool → Json
  | null : Json
  | arr : List Json → Json
  | obj : List (String × Json) → Json
deriving Repr

mutual
/-- Decidable equality on JSON values. -/
def Json.decEq : (a b : Json) → Decidable (a = b)
  | .str a, .str b =>
      if h : a = b then isTrue (by rw [h]) else isFalse (by simp [h])
  | .num a, .num b =>
      if h : a = b then isTrue (by rw [h]) else isFalse (by simp [h])
  | .bool a, .bool b =>
      if h : a = b then isTrue (by rw [h]) else isFalse (by simp [h])
  | .null, .null => isTrue rfl
  | .arr a, .arr b =>
      match Json.decEqList a b with
      | isTrue h => isTrue (by rw [h])
      | isFalse h => isFalse (by simp [h])
  | .obj a, .obj b =>
      match Json.decEqObj a b with
      | isTrue h => isTrue (by rw [h])
      | isFalse h => isFalse (by simp [h])
  | .str _, .num _ => isFalse (fun h => nomatch h)
  | .str _, .bool _ => isFalse (fun h => nomatch h)
  | .str _, .null => isFalse (fun h => nomatch h)
  | .str _, .arr _ => isFalse (fun h => nomatch h)
  | .str _, .obj _ => isFalse (fun h => nomatch h)
  | .num _, .str _ => isFalse (fun h => nomatch h)
  | .num _, .bool _ => isFalse (fun h => nomatch h)
  | .num _, .null => isFalse (fun h => nomatch h)
  | .num _, .arr _ => isFalse (fun h => nomatch h)
  | .num _, .obj _ => isFalse (fun h => nomatch h)
  | .bool _, .str _ => isFalse (fun h => nomatch h)
  | .bool _, .num _ => isFalse (fun h => nomatch h)
  | .bool _, .null => isFalse (fun h => nomatch h)
  | .bool _, .arr _ => isFalse (fun h => nomatch h)
  | .bool _, .obj _ => isFalse (fun h => nomatch h)
  | .null, .str _ => isFalse (fun h => nomatch h)
  | .null, .num _ => isFalse (fun h => nomatch h)
  | .null, .bool _ => isFalse (fun h => nomatch h)
  | .null, .arr _ => isFalse (fun h => nomatch h)
  | .null, .obj _ => isFalse (fun h => nomatch h)
  | .arr _, .str _ => isFalse (fun h => nomatch h)
  | .arr _, .num _ => isFalse (fun h => nomatch h)
  | .arr _, .bool _ => isFalse (fun h => nomatch h)
  | .arr _, .null => isFalse (fun h => nomatch h)
  | .arr _, .obj _ => isFalse (fun h => nomatch h)
  | .obj _, .str _ => isFalse (fun h => nomatch h)
  | .obj _, .num _ => isFalse (fun h => nomatch h)
  | .obj _, .bool _ => isFalse (fun h => nomatch h)
  | .obj _, .null => isFalse (fun h => nomatch h)
  | .obj _, .arr _ => isFalse (fun h => nomatch h)

/-- Decidable equality on JSON arrays. -/
def Json.decEqList : (a b : List Json) → Decidable (a = b)
  | [], [] => isTrue rfl
  | [], _ :: _ => isFalse (fun h => nomatch h)
  | _ :: _, [] => isFalse (fun h => nomatch h)
  | x :: xs, y :: ys =>
      match Json.decEq x y, Json.decEqList xs ys with
      | isTrue h1, isTrue h2 => isTrue (by rw [h1, h2])
      | isFalse h1, _ =>
          isFalse (by intro h; injection h with hh _; exact h1 hh)
      | _, isFalse h2 =>
          isFalse (by intro h; injection h with _ ht; exact h2 ht)

/-- Decidable equality on JSON object entry lists. -/
def Json.decEqObj : (a b : List (String × Json)) → Decidable (a = b)
  | [], [] => isTrue rfl
  | [], _ :: _ => isFalse (fun h => nomatch h)
  | _ :: _, [] => isFalse (fun h => nomatch h)
  | (k, v) :: xs, (k', v') :: ys =>
      if hk : k = k' then
        match Json.decEq v v', Json.decEqObj xs ys with
        | isTrue h1, isTrue h2 => isTrue (by rw [hk, h1, h2])
        | isFalse h1, _ =>
            isFalse (by
              intro h
              injection h with hh _
              exact h1 (congrArg Prod.snd hh))
        | _, isFalse h2 =>
            isFalse (by intro h; injection h with _ ht; exact h2 ht)
      else
        isFalse (by
          intro h
          injection h with hh _
          exact hk (congrArg Prod.fst hh))
end

instance : DecidableEq Json := Json.decEq

/-- Decidable equality for `Except` results (not provided by core). -/
instance {ε α : Type} [DecidableEq ε] [DecidableEq α] :
    DecidableEq (Except ε α) := fun a b =>
  match a, b with
  | .ok x, .ok y =>
      if h : x = y then isTrue (by rw [h]) else isFalse (by simp [h])
  | .error x, .error y =>
      if h : x = y then isTrue (by rw [h]) else isFalse (by simp [h])
  | .ok _, .error _ => isFalse (fun h => nomatch h)
  | .error _, .ok _ => isFalse (fun h => nomatch h)

/-- Lookup in a Python dictionary modelled as an association list (first
binding for a key wins, as dictionaries hold each key once). -/
def dlookup {α : Type} (d : List (String × α)) (k : String) : Option α :=
  match d with
  | [] => none
  | (k', v) :: rest => if k' = k then some v else dlookup rest k

/-- Python `x or y` on optional values (`None` falls through). -/
def pyOpt {α : Type} (a b : Option α) : Option α :=
  match a with
  | some v => some v
  | none => b

/-- Python `x or y` on optional strings: both `None` and the empty string are
falsy and fall through to `y`. -/
def pyOrStr (a b : Option String) : Option String :=
  match a with
  | some s => if s = "" then b else some s
  | none => b

/-- Python `x or y` where `y` is a plain string default (used for
`method or self._method`). -/
def pyOrStrD (a : Option String) (b : String) : String :=
  match a with
  | some s => if s = "" then b else s
  | none => b

/-- Python dictionary merge: `pyUpdate a b` models `\x7b**a, **b\x7d` (and
`a.update(b)`): the entries of `a` in order, with values overridden by `b`
where `b` holds the key, followed by the entries of `b` whose keys are new. -/
def pyUpdate {α : Type} (a b : List (String × α)) : List (String × α) :=
  a.map (fun p => match dlookup b p.1 with
    | some v => (p.1, v)
    | none => p)
  ++ b.filter (fun p => (dlookup a p.1).isNone)

mutual
/-- `ujson.dumps` on a decoded JSON value (compact separators, as `ujson`
emits: no spaces after `:` or `,`). -/
def jsonDumps : Json → String
  | .str s => "\"" ++ s ++ "\""
  | .num n => toString n
  | .bool true => "true"
  | .bool false => "false"
  | .null => "null"
  | .arr xs => "[" ++ jsonDumpsList xs ++ "]"
  | .obj kvs => "\x7b" ++ jsonDumpsObj kvs ++ "\x7d"

/-- Serialise the elements of a JSON array, comma separated. -/
def jsonDumpsList : List Json → String
  | [] => ""
  | [x] => jsonDumps x
  | x :: y :: xs => jsonDumps x ++ "," ++ jsonDumpsList (y :: xs)

/-- Serialise the entries of a JSON object, comma separated. -/
def jsonDumpsObj : List (String × Json) → String
  | [] => ""
  | [(k, v)] => "\"" ++ k ++ "\":" ++ jsonDumps v
  | (k, v) :: e :: kvs =>
      "\"" ++ k ++ "\":" ++ jsonDumps v ++ "," ++ jsonDumpsObj (e :: kvs)
end

/-- Python `self.json.get(key)` followed by the library's `is None` tests:
`dict.get` yields `None` both when the key is absent and when the decoded
value is JSON `null` (which decodes to Python `None`). -/
def Json.get (j : Json) (k : String) : Option Json :=
  match j with
  | .obj kvs =>
      match dlookup kvs k with
      | some .null => none
      | v => v
  | _ => none

/-- A GraphQL request descriptor, after `__post_init__` (`aiographql/client/
request.py`, class `GraphQLRequest`): `operation` has been folded into
`operationName`, and `None` `variables`/`headers` have been normalised to
empty dictionaries. -/
structure GraphQLRequest where
  query : String
  operationName : Option String := none
  vars : List (String × Json) := []
  validate : Bool := true
  headers : List (String × String) := []
deriving Repr, DecidableEq

/-- `GraphQLRequest._coerce_value`: booleans become `int(value)` (0 or 1,
checked first since `bool` is checked before `dict`), dictionaries become
their `ujson.dumps` serialisation, everything else is returned unchanged. -/
def GraphQLRequest._coerce_value (value : Json) : Json :=
  match value with
  | .bool b => .num (if b then 1 else 0)
  | .obj kvs => .str (jsonDumps (.obj kvs))
  | v => v

/-- `dataclasses.asdict(self)` on a `GraphQLRequest`: the dataclass fields in
declaration order, with `None`-valued fields represented as `none`. -/
def GraphQLRequest.asdict (r : GraphQLRequest) : List (String × Option Json) :=
  [ ("query", some (.str r.query)),
    ("operationName", r.operationName.map Json.str),
    ("variables", some (.obj r.vars)),
    ("validate", some (.bool r.validate)),
    ("headers", some (.obj (r.headers.map (fun p => (p.1, Json.str p.2))))) ]

/-- `GraphQLRequest.payload`: the entries of `asdict(self)` whose value is not
`None` and whose key is not `schema`, `headers` or `validate`; when `coerce`
is set each retained value goes through `_coerce_value`. -/
def GraphQLRequest.payload (r : GraphQLRequest) (coerce : Bool) :
    List (String × Json) :=
  r.asdict.filterMap (fun kv =>
    match kv.2 with
    | none => none
    | some v =>
        if kv.1 = "schema" ∨ kv.1 = "headers" ∨ kv.1 = "validate" then none
        else some (kv.1, if coerce then GraphQLRequest._coerce_value v else v))

/-- `GraphQLRequest.copy`: a new descriptor via `dataclasses.replace` with
`operation = operation or self.operationName`,
`variables = \x7b**deepcopy(self.variables), **(variables or dict())\x7d` and
`headers = \x7b**(headers_fallback or dict()), **self.headers,
**(headers or dict())\x7d`. In this value-level model `deepcopy` is the
identity; aliasing behaviour is studied separately in the `Mut` namespace. -/
def GraphQLRequest.copy (r : GraphQLRequest)
    (headers headers_fallback : Option (List (String × String)))
    (operation : Option String)
    (vars? : Option (List (String × Json))) : GraphQLRequest :=
  { r with
    operationName := pyOrStr operation r.operationName,
    vars := pyUpdate r.vars (vars?.getD []),
    headers :=
      pyUpdate (pyUpdate (headers_fallback.getD []) r.headers)
        (headers.getD []) }

/-- The built-in default headers set in `GraphQLClient.__init__`. -/
def defaultClientHeaders : List (String × String) :=
  [("Content-Type", "application/json"), ("Accept-Encoding", "gzip")]

/-- `GraphQLClient.__init__` header setup: `self._headers` starts from the
built-in defaults and is `update`d with the client-level headers. -/
def GraphQLClient.initHeaders (headers : Option (List (String × String))) :
    List (String × String) :=
  pyUpdate defaultClientHeaders (headers.getD [])

/-- `GraphQLClient._prepare_request`: wrap a raw query string into a default
`GraphQLRequest`, then `copy` it with the per-call overrides and the client
headers as `headers_fallback`. -/
def GraphQLClient._prepare_request (clientHeaders : List (String × String))
    (request : String ⊕ GraphQLRequest) (operation : Option String)
    (vars? : Option (List (String × Json)))
    (headers : Option (List (String × String))) : GraphQLRequest :=
  let req := match request with
    | .inl q => { query := q : GraphQLRequest }
    | .inr r => r
  req.copy headers (some clientHeaders) operation vars?

/-- A GraphQL response envelope (`GraphQLResponse`): the originating request
and the decoded JSON body. -/
structure GraphQLResponse where
  request : GraphQLRequest
  json : Json
deriving Repr, DecidableEq

/-- `GraphQLRequestException`: raised on a non-2xx HTTP status, carrying the
full response envelope on its `response` attribute. -/
structure GraphQLRequestException where
  response : GraphQLResponse
deriving Repr, DecidableEq

/-- `GraphQLClient._http_request`: the decoded body is wrapped into a
`GraphQLResponse`; a status inside [200, 300) returns it, any other status
raises `GraphQLRequestException` carrying that same envelope. -/
def GraphQLClient._http_request (request : GraphQLRequest) (status : Nat)
    (body : Json) : Except GraphQLRequestException GraphQLResponse :=
  let response : GraphQLResponse := { request := request, json := body }
  if 200 ≤ status ∧ status < 300 then .ok response
  else .error { response := response }

/-- Opaque handle to a parsed GraphQL schema, as produced by the external
`graphql.build_client_schema` collaborator. -/
structure Schema where
  introspection : Json
deriving Repr, DecidableEq

/-- Opaque handle to a parsed GraphQL document, as produced by the external
`graphql.parse` collaborator. -/
structure DocumentAST where
  source : String
deriving Repr, DecidableEq

/-- `GraphQLClientValidationException(*errors)`: aggregates every error the
validator returned (its message is built from all of them). -/
structure GraphQLClientValidationException where
  errors : List String
deriving Repr, DecidableEq

/-- Outcome of `GraphQLClient.validate`: normal return, a propagated
`graphql.GraphQLSyntaxError` from `graphql.parse`, or a raised
`GraphQLClientValidationException`. -/
inductive ValidateOutcome where
  | ok : ValidateOutcome
  | syntaxError : String → ValidateOutcome
  | validationError : GraphQLClientValidationException → ValidateOutcome
deriving Repr, DecidableEq

/-- One run of `GraphQLClient.validate`, recording its observable effects:
whether `get_schema` was consulted, whether `graphql.parse` was invoked, and
the outcome. -/
structure ValidationRun where
  fetchedSchema : Bool
  parsed : Bool
  outcome : ValidateOutcome
deriving Repr, DecidableEq

/-- `GraphQLClient.validate`: return immediately when the request has
`validate == False` and `force` is not set; otherwise resolve the schema
(`schema or await self.get_schema(...)` — the client schema `resolved` stands
for whatever `get_schema` would return), parse the query, run the external
validator and raise `GraphQLClientValidationException(*errors)` when the
error list is non-empty. -/
def GraphQLClient.validate (resolved : Schema)
    (parse : String → Except String DocumentAST)
    (validator : Schema → DocumentAST → List String)
    (request : GraphQLRequest) (schema : Option Schema)
    (force : Bool) : ValidationRun :=
  if request.validate = false ∧ force = false then
    { fetchedSchema := false, parsed := false, outcome := .ok }
  else
    let fetched := schema.isNone
    let s := match schema with
      | some s => s
      | none => resolved
    match parse request.query with
    | .error e => { fetchedSchema := fetched, parsed := true, outcome := .syntaxError e }
    | .ok ast =>
        let errors := validator s ast
        if errors = [] then
          { fetchedSchema := fetched, parsed := true, outcome := .ok }
        else
          { fetchedSchema := fetched, parsed := true,
            outcome := .validationError { errors := errors } }

/-- The schema-cache state of a `GraphQLClient`: its `_schema` attribute. -/
structure ClientState where
  _schema : Option Schema
deriving Repr, DecidableEq

/-- `GraphQLIntrospectionException`. -/
structure GraphQLIntrospectionException where
  message : String
deriving Repr, DecidableEq

/-- `GraphQLClient.introspect`: performs a fresh introspection query (with
`validate=False`) and builds a schema from the result; `build` stands for the
external `graphql.build_client_schema` applied to the introspection response
data. The method never touches `self._schema`, so the state is returned
unchanged. -/
def GraphQLClient.introspect (st : ClientState)
    (build : Except GraphQLIntrospectionException Schema) :
    Except GraphQLIntrospectionException Schema × ClientState :=
  (build, st)

/-- One run of `GraphQLClient.get_schema`, recording the returned schema (or
the propagated introspection failure), the state after the call, and whether
`introspect` was invoked. -/
structure SchemaFetch where
  result : Except GraphQLIntrospectionException Schema
  state : ClientState
  introspected : Bool
deriving Repr, DecidableEq

/-- `GraphQLClient.get_schema`: when `self._schema is None or refresh`, call
`introspect` and store its result wholesale in `self._schema`; otherwise
return the cached schema untouched. -/
def GraphQLClient.get_schema (st : ClientState)
    (build : Except GraphQLIntrospectionException Schema)
    (refresh : Bool) : SchemaFetch :=
  match st._schema, refresh with
  | some s, false => { result := .ok s, state := st, introspected := false }
  | _, _ =>
      match GraphQLClient.introspect st build with
      | (.ok s, st') =>
          { result := .ok s, state := { st' with _schema := some s },
            introspected := true }
      | (.error e, st') =>
          { result := .error e, state := st', introspected := true }

/-- Outcome of `GraphQLClient.query`: a validation failure propagated out of
`self.validate`, the `GraphQLClientException` raised on an invalid method, or
an HTTP dispatch of the prepared request with the chosen method and payload
(`json=payload()` for `post`, `params=payload(coerce=True)` for `get`). -/
inductive QueryOutcome where
  | validationFailed : ValidateOutcome → QueryOutcome
  | invalidMethod : String → QueryOutcome
  | sent : String → List (String × Json) → GraphQLRequest → QueryOutcome
deriving Repr, DecidableEq

/-- One run of `GraphQLClient.query`, recording whether validation had to
introspect the endpoint over the network (cache miss on a validating
request) before the method check, and the outcome. -/
structure QueryRun where
  introspectedDuringValidation : Bool
  outcome : QueryOutcome
deriving Repr, DecidableEq

/-- `GraphQLClient.query`: prepare the request, run `self.validate` (which
resolves the schema through `get_schema`, introspecting on a cache miss),
then pick the HTTP method as `method or self._method` and either dispatch the
request (`post` / `get`) or raise
`GraphQLClientException(f"Invalid method ...")`. -/
def GraphQLClient.query (clientHeaders : List (String × String))
    (clientMethod : String) (st : ClientState) (fresh : Schema)
    (parse : String → Except String DocumentAST)
    (validator : Schema → DocumentAST → List String)
    (request : String ⊕ GraphQLRequest) (method : Option String)
    (headers : Option (List (String × String))) (operation : Option String)
    (vars? : Option (List (String × Json))) : QueryRun :=
  let req := GraphQLClient._prepare_request clientHeaders request operation
    vars? headers
  let vrun := GraphQLClient.validate (st._schema.getD fresh) parse validator
    req none false
  let net := vrun.fetchedSchema && st._schema.isNone
  match vrun.outcome with
  | .ok =>
      let m := pyOrStrD method clientMethod
      if m = "post" then
        { introspectedDuringValidation := net,
          outcome := .sent "post" (req.payload false) req }
      else if m = "get" then
        { introspectedDuringValidation := net,
          outcome := .sent "get" (req.payload true) req }
      else
        { introspectedDuringValidation := net, outcome := .invalidMethod m }
  | r =>
      { introspectedDuringValidation := net, outcome := .validationFailed r }

/-- The GraphQL-over-WebSocket protocol message kinds
(`GraphQLSubscriptionEventType`). -/
inductive GraphQLSubscriptionEventType where
  | CONNECTION_INIT
  | CONNECTION_ACK
  | CONNECTION_ERROR
  | CONNECTION_TERMINATE
  | START
  | DATA
  | ERROR
  | COMPLETE
  | STOP
  | KEEP_ALIVE
deriving Repr, DecidableEq

/-- `GraphQLSubscriptionEventType(value)`: resolve a wire string to a protocol
message kind; an unknown string raises `ValueError` (modelled as `none`). -/
def GraphQLSubscriptionEventType.ofValue (s : String) :
    Option GraphQLSubscriptionEventType :=
  if s = "connection_init" then some .CONNECTION_INIT
  else if s = "connection_ack" then some .CONNECTION_ACK
  else if s = "connection_error" then some .CONNECTION_ERROR
  else if s = "connection_terminate" then some .CONNECTION_TERMINATE
  else if s = "start" then some .START
  else if s = "data" then some .DATA
  else if s = "error" then some .ERROR
  else if s = "complete" then some .COMPLETE
  else if s = "stop" then some .STOP
  else if s = "ka" then some .KEEP_ALIVE
  else none

/-- `GraphQLSubscriptionEvent`: a received WebSocket message (decoded JSON)
together with the originating request and the owning subscription's id. -/
structure GraphQLSubscriptionEvent where
  subscription_id : Option String := none
  request : GraphQLRequest
  json : Json
deriving Repr, DecidableEq

/-- `GraphQLSubscriptionEvent.id`: `self.json.get("id")`. -/
def GraphQLSubscriptionEvent.id (e : GraphQLSubscriptionEvent) : Option Json :=
  e.json.get "id"

/-- `GraphQLSubscriptionEvent.type`: `self.json.get("type")` resolved through
the `GraphQLSubscriptionEventType` enumeration, `None` when the kind is
unknown or not a string (`ValueError` is swallowed). -/
def GraphQLSubscriptionEvent.type (e : GraphQLSubscriptionEvent) :
    Option GraphQLSubscriptionEventType :=
  match e.json.get "type" with
  | some (.str s) => GraphQLSubscriptionEventType.ofValue s
  | _ => none

/-- The status of an `asyncio.Task` as far as `GraphQLSubscription.active`
observes it (`task.done()` / `task.cancelled()`). -/
structure TaskStatus where
  isDone : Bool
  isCancelled : Bool
deriving Repr, DecidableEq

/-- `GraphQLSubscription`: the subscription container. `task` is `None` until
`subscribe` populates it. -/
structure GraphQLSubscription where
  id : String
  request : GraphQLRequest
  stop_event_types : List GraphQLSubscriptionEventType :=
    [.ERROR, .CONNECTION_ERROR, .COMPLETE]
  task : Option TaskStatus := none
deriving Repr, DecidableEq

/-- `GraphQLSubscription.active`: `self.task is not None and not
self.task.done() and not self.task.cancelled()`. -/
def GraphQLSubscription.active (s : GraphQLSubscription) : Bool :=
  match s.task with
  | none => false
  | some t => !t.isDone && !t.isCancelled

/-- One run of `GraphQLSubscription.handle`: whether the event was dispatched
to the callback registry, and the handlers the registry invoked (callback
handlers are abstract tags; the registry itself is the external
`cafeteria` `CallbackRegistry` collaborator). -/
structure HandleRun where
  dispatched : Bool
  invoked : List Nat
deriving Repr, DecidableEq

/-- `GraphQLSubscription.handle`: dispatch the event to
`self.callbacks.handle_event(event.type, event)` when `event.id is None or
event.id == self.id`; otherwise do nothing. `handle_event` stands for the
external callback registry and returns the handlers it invokes for the
event's type. -/
def GraphQLSubscription.handle (s : GraphQLSubscription)
    (handle_event : Option GraphQLSubscriptionEventType →
      GraphQLSubscriptionEvent → List Nat)
    (event : GraphQLSubscriptionEvent) : HandleRun :=
  if event.id = none ∨ event.id = some (.str s.id) then
    { dispatched := true, invoked := handle_event event.type event }
  else
    { dispatched := false, invoked := [] }

/-- One run of `GraphQLSubscription.unsubscribe`: the subscription state after
the call (its `task` attribute rewritten) and whether `task.cancel()` was
requested. -/
structure UnsubscribeRun where
  sub : GraphQLSubscription
  cancelRequested : Bool
deriving Repr, DecidableEq

/-- `GraphQLSubscription.unsubscribe`: cancel the task when the subscription
is active (swallowing `asyncio.CancelledError`), then unconditionally clear
the `task` attribute to `None`. -/
def GraphQLSubscription.unsubscribe (s : GraphQLSubscription) :
    UnsubscribeRun :=
  if s.active then
    { sub := { s with task := none }, cancelRequested := true }
  else
    { sub := { s with task := none }, cancelRequested := false }

/-- `GraphQLError` (`aiographql/client/error.py`): the four declared dataclass
fields. Field values are kept as raw decoded JSON, as Python dataclasses do
not enforce the annotations; a missing optional field is the JSON `null`
(Python `None`), a missing `extensions` is the empty dictionary. -/
structure GraphQLError where
  extensions : Json := .obj []
  locations : Json := .null
  message : Json := .null
  path : Json := .null
deriving Repr, DecidableEq

/-- The declared field names of the `GraphQLError` dataclass
(`dataclasses.fields(cls)`). -/
def graphQLErrorFieldNames : List String :=
  ["extensions", "locations", "message", "path"]

/-- `GraphQLError(**data)` restricted to the declared fields: each declared
field takes the value supplied in `data`, or its dataclass default. -/
def GraphQLError.fromData (data : List (String × Json)) : GraphQLError :=
  { extensions := (dlookup data "extensions").getD (.obj []),
    locations := (dlookup data "locations").getD .null,
    message := (dlookup data "message").getD .null,
    path := (dlookup data "path").getD .null }

/-- The Python keywords, as `keyword.iskeyword` recognises them. -/
def pyKeywords : List String :=
  ["False", "None", "True", "and", "as", "assert", "async", "await",
   "break", "class", "continue", "def", "del", "elif", "else", "except",
   "finally", "for", "from", "global", "if", "import", "in", "is",
   "lambda", "nonlocal", "not", "or", "pass", "raise", "return", "try",
   "while", "with", "yield"]

/-- The ASCII fragment of the Python runtime's `str.isidentifier()`:
non-empty, the first character a letter or underscore, the rest letters,
digits or underscores. On ASCII strings this agrees exactly with Python
(which additionally accepts some non-ASCII identifiers); it is used only to
instantiate concrete runs on ASCII field names, never inside the model of
the library code itself. -/
def isPyIdentifier (s : String) : Bool :=
  match s.data with
  | [] => false
  | c :: cs => (c.isAlpha || c = '_')
      && cs.all (fun d => d.isAlphanum || d = '_')

/-- The dynamically extended error record built by `GraphQLError.load`: the
base dataclass fields plus the dynamically attached unknown fields. -/
structure CustomGraphQLError where
  base : GraphQLError
  extra : List (String × Json)
deriving Repr, DecidableEq

/-- `GraphQLError.load` (`src/aiographql/client/error.py` of the packaged
layout): collect the keys of `data` that are not declared dataclass fields;
when there are none, construct a plain `GraphQLError`; otherwise build a
`CustomGraphQLError` dataclass with one extra field per unknown key and
instantiate it with `**data`. `dataclasses.make_dataclass` raises
`TypeError` when a requested field name fails `str.isidentifier()` or is a
keyword; those two Python-runtime predicates are external collaborators and
are passed in as `isidentifier` and `iskeyword`. -/
def GraphQLError.load (isidentifier iskeyword : String → Bool)
    (data : List (String × Json)) : Except String CustomGraphQLError :=
  let customKeys :=
    (data.map Prod.fst).filter (fun k => !graphQLErrorFieldNames.contains k)
  if customKeys.all (fun k => isidentifier k && !iskeyword k) then
    .ok { base := GraphQLError.fromData data,
          extra := data.filter
            (fun p => !graphQLErrorFieldNames.contains p.1) }
  else
    .error "TypeError: field names must be valid identifiers"

/-- `BASE_ERROR_FIELDS` (`aiographql/client/response.py` of the flat layout):
note that `path` is absent from this set. -/
def BASE_ERROR_FIELDS : List String := ["extensions", "locations", "message"]

/-- One error record of the `GraphQLResponse.errors` property (flat layout):
split the raw error object into known fields (`BASE_ERROR_FIELDS`) and
unknown fields, stash the unknown ones under the `_unknown_fields` key of
`extensions`, and instantiate `GraphQLError(**error_fields)`.
`error_fields.setdefault("extensions", \x7b\x7d)` creates an empty
dictionary when the error has no `extensions`; but when the error carries an
`extensions` value that is not a dictionary (a JSON `null`, string, number,
boolean or array), `setdefault` returns that value unchanged and the item
assignment `[...]["_unknown_fields"] = ...` on it raises `TypeError`. -/
def GraphQLResponse.loadErrorWithBucket (error : List (String × Json)) :
    Except String GraphQLError :=
  let error_fields := error.filter (fun p => BASE_ERROR_FIELDS.contains p.1)
  let unknown_error_fields :=
    error.filter (fun p => !BASE_ERROR_FIELDS.contains p.1)
  match dlookup error_fields "extensions" with
  | some (.obj kvs) =>
      .ok { extensions := .obj (pyUpdate kvs
              [("_unknown_fields", .obj unknown_error_fields)]),
            locations := (dlookup error_fields "locations").getD .null,
            message := (dlookup error_fields "message").getD .null,
            path := .null }
  | none =>
      .ok { extensions := .obj (pyUpdate []
              [("_unknown_fields", .obj unknown_error_fields)]),
            locations := (dlookup error_fields "locations").getD .null,
            message := (dlookup error_fields "message").getD .null,
            path := .null }
  | some _ =>
      .error "TypeError: item assignment on a non-dict extensions value"

/-- `GraphQLResponse.errors` (flat layout): every entry of the body's
`errors` list, loaded through the unknown-field bucket; the `TypeError`
raised on any malformed entry propagates out of the property. -/
def GraphQLResponse.errorsWithBucket
    (errors : List (List (String × Json))) : Except String (List GraphQLError) :=
  errors.mapM GraphQLResponse.loadErrorWithBucket

namespace Mut

/-!
A store-based embedding of `GraphQLRequest.copy`, used to study the aliasing
and mutation behaviour of `variables = \x7b**deepcopy(self.variables),
**(variables or dict())\x7d`. Mutable dictionaries live in an explicit store;
a variables dictionary maps keys to either immutable values or references to
nested mutable dictionaries (nesting is modelled to one level, which is the
depth the aliasing behaviour needs).
-/

/-- A value held by a variables dictionary: an immutable JSON value, or a
reference to a nested mutable dictionary in the store. -/
inductive PyVal where
  | prim : Json → PyVal
  | ref : Nat → PyVal
deriving Repr, DecidableEq

/-- A nested mutable dictionary. -/
abbrev FlatDict := List (String × Json)

/-- A top-level variables dictionary. -/
abbrev VarsDict := List (String × PyVal)

/-- The heap: top-level variables dictionaries and nested dictionaries, each
addressed by its allocation index. -/
structure Store where
  tops : List VarsDict
  flats : List FlatDict
deriving Repr, DecidableEq

/-- Read a top-level dictionary. -/
def Store.getTop (σ : Store) (r : Nat) : VarsDict := σ.tops.getD r []

/-- Read a nested dictionary. -/
def Store.getFlat (σ : Store) (f : Nat) : FlatDict := σ.flats.getD f []

/-- Mutate a top-level dictionary in place (e.g. add or replace entries of
the override map or of the original's variables map after the call). -/
def Store.setTop (σ : Store) (r : Nat) (d : VarsDict) : Store :=
  { σ with tops := σ.tops.set r d }

/-- Mutate a nested dictionary in place. -/
def Store.setFlat (σ : Store) (f : Nat) (d : FlatDict) : Store :=
  { σ with flats := σ.flats.set f d }

/-- A request descriptor whose `variables` field is a reference to a mutable
dictionary in the store. -/
structure GraphQLRequest where
  query : String
  operationName : Option String := none
  vars : Nat
  validate : Bool := true
  headers : List (String × String) := []
deriving Repr, DecidableEq

/-- `copy.deepcopy(self.variables)`, entry by entry: immutable values are
shared, every nested dictionary is copied into a freshly allocated slot. -/
def deepcopyEntries : List FlatDict → VarsDict → List FlatDict × VarsDict
  | flats, [] => (flats, [])
  | flats, (k, .prim j) :: rest =>
      ((deepcopyEntries flats rest).1,
       (k, .prim j) :: (deepcopyEntries flats rest).2)
  | flats, (k, .ref f) :: rest =>
      ((deepcopyEntries (flats ++ [flats.getD f []]) rest).1,
       (k, .ref flats.length) ::
         (deepcopyEntries (flats ++ [flats.getD f []]) rest).2)

/-- The entries of `variables or dict()` as read from the store when `copy`
executes. -/
def overrideEntries (σ : Store) (vars? : Option Nat) : VarsDict :=
  match vars? with
  | some v => σ.getTop v
  | none => []

/-- `GraphQLRequest.copy` over the store: deep-copy the original's variables,
merge the override entries over the copy (override values are shared, not
copied), and allocate the merged dictionary as a fresh object. Headers and
`operationName` are handled as in the value-level model. -/
def GraphQLRequest.copy (σ : Store) (r : GraphQLRequest)
    (headers headers_fallback : Option (List (String × String)))
    (operation : Option String) (vars? : Option Nat) :
    Store × GraphQLRequest :=
  let dc := deepcopyEntries σ.flats (σ.getTop r.vars)
  let newEntries := pyUpdate dc.2 (overrideEntries σ vars?)
  ({ tops := σ.tops ++ [newEntries], flats := dc.1 },
   { r with
     operationName := pyOrStr operation r.operationName,
     vars := σ.tops.length,
     headers :=
       pyUpdate (pyUpdate (headers_fallback.getD []) r.headers)
         (headers.getD []) })

/-- The fully resolved value behind a dictionary entry: either the immutable
value itself or the current contents of the referenced nested dictionary. -/
inductive VarTree where
  | prim : Json → VarTree
  | dict : FlatDict → VarTree
deriving Repr, DecidableEq

/-- Resolve a dictionary value against the store. -/
def resolveVal (flats : List FlatDict) : PyVal → VarTree
  | .prim j => .prim j
  | .ref f => .dict (flats.getD f [])

/-- The observable contents of a variables dictionary: every entry with its
value resolved against the store. -/
def resolveVars (σ : Store) (r : Nat) : List (String × VarTree) :=
  (σ.getTop r).map (fun p => (p.1, resolveVal σ.flats p.2))

end Mut

section DictLemmas

variable {α : Type}

/-- `pyOpt` with an empty fallback. -/
theorem pyOpt_none_right (a : Option α) : pyOpt a none = a := by
  cases a <;> rfl

/-- Filtering by a key-only predicate that holds for `k` preserves the
lookup at `k`. -/
theorem dlookup_filter_pos (l : List (String × α)) (q : String → Bool)
    (k : String) (hq : q k = true) :
    dlookup (l.filter (fun p => q p.1)) k = dlookup l k := by
  induction l with
  | nil => rfl
  | cons hd tl ih =>
      by_cases hk : hd.1 = k
      · subst hk
        simp [List.filter, hq, dlookup, ih]
      · cases hhd : q hd.1 <;>
          simp [List.filter, hhd, dlookup, hk, ih]

/-- Filtering by a key-only predicate that fails for `k` removes every
binding of `k`. -/
theorem dlookup_filter_neg (l : List (String × α)) (q : String → Bool)
    (k : String) (hq : q k = false) :
    dlookup (l.filter (fun p => q p.1)) k = none := by
  induction l with
  | nil => rfl
  | cons hd tl ih =>
      by_cases hk : hd.1 = k
      · subst hk
        simp [List.filter, hq, dlookup, ih]
      · cases hhd : q hd.1 <;>
          simp [List.filter, hhd, dlookup, hk, ih]

/-- Lookup distributes over append, first list winning. -/
theorem dlookup_append (xs ys : List (String × α)) (k : String) :
    dlookup (xs ++ ys) k = pyOpt (dlookup xs k) (dlookup ys k) := by
  induction xs with
  | nil => rfl
  | cons hd tl ih =>
      by_cases hk : hd.1 = k
      · cases hd
        simp_all [dlookup, pyOpt]
      · cases hd
        simp_all [dlookup, pyOpt]

/-- Lookup in the overridden-entries part of `pyUpdate`. -/
theorem dlookup_pyUpdate_mapped (a b : List (String × α)) (k : String) :
    dlookup (a.map (fun p => match dlookup b p.1 with
      | some v => (p.1, v)
      | none => p)) k
    = match dlookup a k with
      | some v => some ((dlookup b k).getD v)
      | none => none := by
  induction a with
  | nil => rfl
  | cons hd tl ih =>
      by_cases hk : hd.1 = k
      · cases hd with
        | mk k0 v0 =>
            subst hk
            cases hb : dlookup b k0 <;> simp [dlookup, hb]
      · cases hd with
        | mk k0 v0 =>
            cases hb : dlookup b k0 <;> simp [dlookup, hb, hk, ih]

/-- The central dictionary-merge law: looking up a key in
`\x7b**a, **b\x7d` yields `b`'s binding when present, else `a`'s. -/
theorem dlookup_pyUpdate (a b : List (String × α)) (k : String) :
    dlookup (pyUpdate a b) k = pyOpt (dlookup b k) (dlookup a k) := by
  unfold pyUpdate
  rw [dlookup_append, dlookup_pyUpdate_mapped]
  cases ha : dlookup a k with
  | some v =>
      have : dlookup (b.filter (fun p => (dlookup a p.1).isNone)) k = none :=
        dlookup_filter_neg b (fun x => (dlookup a x).isNone) k (by simp [ha])
      rw [this]
      cases hb : dlookup b k <;> simp [pyOpt]
  | none =>
      have : dlookup (b.filter (fun p => (dlookup a p.1).isNone)) k
          = dlookup b k :=
        dlookup_filter_pos b (fun x => (dlookup a x).isNone) k (by simp [ha])
      rw [this]
      cases hb : dlookup b k <;> simp [pyOpt]

end DictLemmas

/-- C1: for every request prepared by the client (the path shared by `query`,
`get`, `post` and `subscribe`), the headers of the prepared request are the
merge of the built-in defaults, the client-level headers, the descriptor's
own headers and the per-call override headers, the later source winning on
any key collision. -/
theorem prepared_request_header_precedence
    (userHeaders : Option (List (String × String)))
    (request : String ⊕ GraphQLRequest) (operation : Option String)
    (vars? : Option (List (String × Json)))
    (override : Option (List (String × String))) (k : String) :
    dlookup (GraphQLClient._prepare_request
        (GraphQLClient.initHeaders userHeaders) request operation vars?
        override).headers k
    = pyOpt (dlookup (override.getD []) k)
        (pyOpt
          (dlookup (match request with
            | .inl _ => []
            | .inr r => r.headers) k)
          (pyOpt (dlookup (userHeaders.getD []) k)
            (dlookup defaultClientHeaders k))) := by
  cases request <;>
  · simp only [GraphQLClient._prepare_request, GraphQLRequest.copy,
      GraphQLClient.initHeaders, Option.getD_some]
    rw [dlookup_pyUpdate, dlookup_pyUpdate, dlookup_pyUpdate]

/-- C2: an inbound subscription event is dispatched to the callback registry
exactly when its id is absent or equals the subscription's id; an event with
a mismatched id invokes no handler, and an event with no id (or a matching
id) hands the registry's handlers the event. -/
theorem subscription_event_dispatch_filter (s : GraphQLSubscription)
    (handle_event : Option GraphQLSubscriptionEventType →
      GraphQLSubscriptionEvent → List Nat)
    (e : GraphQLSubscriptionEvent) :
    ((s.handle handle_event e).dispatched = true
      ↔ (e.id = none ∨ e.id = some (.str s.id)))
    ∧ (∀ i : Json, e.id = some i → i ≠ .str s.id →
        s.handle handle_event e = { dispatched := false, invoked := [] })
    ∧ (e.id = none ∨ e.id = some (.str s.id) →
        (s.handle handle_event e).invoked = handle_event e.type e) := by
  refine ⟨?_, ?_, ?_⟩
  · by_cases h : e.id = none ∨ e.id = some (.str s.id) <;>
      simp [GraphQLSubscription.handle, h]
  · intro i hi hne
    have h : ¬(e.id = none ∨ e.id = some (.str s.id)) := by
      rw [hi]
      simp
      intro hc
      exact hne (by rw [hc])
    simp [GraphQLSubscription.handle, h]
  · intro h
    simp [GraphQLSubscription.handle, h]

/-- Witness for C2 at a concrete subscription and event. -/
theorem subscription_event_dispatch_filter_witness :
    let s : GraphQLSubscription :=
      { id := "abc", request := { query := "q" } }
    let reg : Option GraphQLSubscriptionEventType →
        GraphQLSubscriptionEvent → List Nat := fun _ _ => [7]
    let e : GraphQLSubscriptionEvent :=
      { request := { query := "q" },
        json := .obj [("id", .str "zzz"), ("type", .str "data")] }
    s.handle reg e = { dispatched := false, invoked := [] } :=
  (subscription_event_dispatch_filter _ _ _).2.1 (.str "zzz") (by decide)
    (by decide)

/-- C4: an HTTP dispatch returns the response envelope when the status lies
in [200, 300) and raises `GraphQLRequestException` carrying the full envelope
(whose `json` is the decoded body) exactly when the status lies outside. -/
theorem http_request_status_envelope (request : GraphQLRequest)
    (status : Nat) (body : Json) :
    (200 ≤ status ∧ status < 300 →
      GraphQLClient._http_request request status body
        = .ok { request := request, json := body })
    ∧ (¬(200 ≤ status ∧ status < 300) →
      GraphQLClient._http_request request status body
        = .error { response := { request := request, json := body } }) := by
  constructor <;> intro h <;> simp [GraphQLClient._http_request, h]

/-- Witness for C4 at statuses 200 and 404. -/
theorem http_request_status_envelope_witness :
    (GraphQLClient._http_request { query := "q" } 200 (.obj [])
      = .ok { request := { query := "q" }, json := .obj [] })
    ∧ (GraphQLClient._http_request { query := "q" } 404 (.obj [("error", .str "not found")]) = .error { response := { request := { query := "q" }, json := .obj [("error", .str "not found")] } }) :=
  ⟨(http_request_status_envelope { query := "q" } 200 (.obj [])).1
      (by decide),
   (http_request_status_envelope { query := "q" } 404
      (.obj [("error", .str "not found")])).2 (by decide)⟩

/-- C5: the GET payload is the POST payload with every value passed through
`_coerce_value`; both omit `None` fields and never contain `headers` or
`validate`; `query`/`variables` are always present, `operationName` exactly
when set; and the coercion sends `True` to the number 1 and the empty
dictionary to the string `"\x7b\x7d"`. -/
theorem payload_get_post_coercion (r : GraphQLRequest) :
    r.payload true
      = (r.payload false).map
          (fun kv => (kv.1, GraphQLRequest._coerce_value kv.2))
    ∧ dlookup (r.payload false) "headers" = none
    ∧ dlookup (r.payload false) "validate" = none
    ∧ dlookup (r.payload true) "headers" = none
    ∧ dlookup (r.payload true) "validate" = none
    ∧ dlookup (r.payload false) "query" = some (.str r.query)
    ∧ dlookup (r.payload false) "variables" = some (.obj r.vars)
    ∧ dlookup (r.payload false) "operationName" = r.operationName.map Json.str
    ∧ GraphQLRequest._coerce_value (.bool true) = .num 1
    ∧ GraphQLRequest._coerce_value (.obj []) = .str "\x7b\x7d" := by
  cases h : r.operationName <;>
    simp [GraphQLRequest.payload, GraphQLRequest.asdict, h,
      GraphQLRequest._coerce_value, dlookup, jsonDumps, jsonDumpsObj]

/-- C10: after `unsubscribe` the task reference is `None` and `active` is
`False` regardless of the prior state; when the subscription is not active
the call requests no cancellation, raises nothing (it is a total function of
the state) and a second `unsubscribe` leaves the state unchanged. -/
theorem unsubscribe_clears_task_idempotent (s : GraphQLSubscription) :
    s.unsubscribe.sub.task = none
    ∧ s.unsubscribe.sub.active = false
    ∧ (s.active = false →
        s.unsubscribe
          = { sub := { s with task := none }, cancelRequested := false })
    ∧ s.unsubscribe.sub.unsubscribe
        = { sub := s.unsubscribe.sub, cancelRequested := false } := by
  by_cases h : s.active = true <;>
    simp_all [GraphQLSubscription.unsubscribe, GraphQLSubscription.active]

/-- Witness for C10 on a subscription with a finished task. -/
theorem unsubscribe_clears_task_idempotent_witness :
    let s : GraphQLSubscription :=
      { id := "abc", request := { query := "q" },
        task := some { isDone := true, isCancelled := false } }
    s.unsubscribe
      = { sub := { s with task := none }, cancelRequested := false } :=
  (unsubscribe_clears_task_idempotent _).2.2.1 (by decide)

/-- C3: with `validate == False` and no `force`, validation returns at once
with no schema fetch and no parse; otherwise it resolves a schema (the
argument or the client's), parses the query, runs the validator, and raises
`GraphQLClientValidationException` aggregating all validator errors exactly
when the validator returns a non-empty error list. -/
theorem validate_skip_and_aggregate (resolved : Schema)
    (parse : String → Except String DocumentAST)
    (validator : Schema → DocumentAST → List String)
    (request : GraphQLRequest) (schema : Option Schema) (force : Bool) :
    (request.validate = false → force = false →
      GraphQLClient.validate resolved parse validator request schema force
        = { fetchedSchema := false, parsed := false, outcome := .ok })
    ∧ (request.validate = true ∨ force = true →
      (GraphQLClient.validate resolved parse validator request schema
          force).parsed = true
      ∧ (GraphQLClient.validate resolved parse validator request schema
          force).fetchedSchema = schema.isNone
      ∧ (∀ ast, parse request.query = .ok ast →
          ((GraphQLClient.validate resolved parse validator request schema
              force).outcome
            = .validationError
                { errors := validator (schema.getD resolved) ast }
            ↔ validator (schema.getD resolved) ast ≠ []))) := by
  constructor
  · intro h1 h2
    simp [GraphQLClient.validate, h1, h2]
  · intro h
    have hcond : ¬(request.validate = false ∧ force = false) := by
      rcases h with h | h <;> simp [h]
    cases hs : schema with
    | none =>
        cases hp : parse request.query with
        | error e => simp [GraphQLClient.validate, hcond, hp]
        | ok ast =>
            refine ⟨?_, ?_, ?_⟩
            · by_cases he : validator resolved ast = [] <;>
                simp [GraphQLClient.validate, hcond, hp, he]
            · by_cases he : validator resolved ast = [] <;>
                simp [GraphQLClient.validate, hcond, hp, he]
            · intro ast' hp'
              injection hp' with hee
              subst hee
              by_cases he : validator resolved ast = [] <;>
                simp [GraphQLClient.validate, hcond, hp, he]
    | some s0 =>
        cases hp : parse request.query with
        | error e => simp [GraphQLClient.validate, hcond, hp]
        | ok ast =>
            refine ⟨?_, ?_, ?_⟩
            · by_cases he : validator s0 ast = [] <;>
                simp [GraphQLClient.validate, hcond, hp, he]
            · by_cases he : validator s0 ast = [] <;>
                simp [GraphQLClient.validate, hcond, hp, he]
            · intro ast' hp'
              injection hp' with hee
              subst hee
              by_cases he : validator s0 ast = [] <;>
                simp [GraphQLClient.validate, hcond, hp, he]

/-- Witness for C3: a skipped validation and a failing validation at
concrete collaborators. -/
theorem validate_skip_and_aggregate_witness :
    (GraphQLClient.validate { introspection := .null }
        (fun s => .ok { source := s }) (fun _ _ => ["bad field"])
        { query := "q", validate := false } none false
      = { fetchedSchema := false, parsed := false, outcome := .ok })
    ∧ ((GraphQLClient.validate { introspection := .null }
        (fun s => .ok { source := s }) (fun _ _ => ["bad field"])
        { query := "q" } none false).outcome
      = .validationError { errors := ["bad field"] }) :=
  ⟨(validate_skip_and_aggregate { introspection := .null }
      (fun s => .ok { source := s }) (fun _ _ => ["bad field"])
      { query := "q", validate := false } none false).1 (by decide)
      (by decide),
   ((validate_skip_and_aggregate { introspection := .null }
      (fun s => .ok { source := s }) (fun _ _ => ["bad field"])
      { query := "q" } none false).2 (by simp)).2.2 { source := "q" }
      (by simp) |>.mpr (by decide)⟩

/-- C6: `get_schema(refresh=False)` returns the cached schema unchanged with
no introspection when a cache exists; on a cache miss or forced refresh it
introspects and replaces the cache wholesale with the result; and
`introspect` alone never changes the client state. -/
theorem schema_cache_lifecycle (st : ClientState)
    (build : Except GraphQLIntrospectionException Schema) (refresh : Bool) :
    (∀ s, st._schema = some s → refresh = false →
      GraphQLClient.get_schema st build refresh
        = { result := .ok s, state := st, introspected := false })
    ∧ (st._schema = none ∨ refresh = true →
      (GraphQLClient.get_schema st build refresh).introspected = true
      ∧ (∀ s, build = .ok s →
          GraphQLClient.get_schema st build refresh
            = { result := .ok s, state := { _schema := some s },
                introspected := true }))
    ∧ (GraphQLClient.introspect st build).2 = st := by
  refine ⟨?_, ?_, rfl⟩
  · intro s hs hr
    simp [GraphQLClient.get_schema, hs, hr]
  · intro h
    have hkey : GraphQLClient.get_schema st build refresh
        = match build with
          | .ok s =>
              { result := .ok s, state := { _schema := some s },
                introspected := true }
          | .error e =>
              { result := .error e, state := st, introspected := true } := by
      rcases h with h | h
      · cases hr : refresh <;>
          cases hb : build <;>
            simp [GraphQLClient.get_schema, GraphQLClient.introspect, h, hb]
      · cases hst : st._schema <;>
          cases hb : build <;>
            simp [GraphQLClient.get_schema, GraphQLClient.introspect, h,
              hst, hb]
    constructor
    · rw [hkey]
      cases build <;> rfl
    · intro s hb
      subst hb
      simp [hkey]

/-- Witness for C6: a cache hit, and a forced refresh replacing the cache. -/
theorem schema_cache_lifecycle_witness :
    (GraphQLClient.get_schema { _schema := some { introspection := .null } }
        (.ok { introspection := .bool true }) false
      = { result := .ok { introspection := .null },
          state := { _schema := some { introspection := .null } },
          introspected := false })
    ∧ (GraphQLClient.get_schema
        { _schema := some { introspection := .null } }
        (.ok { introspection := .bool true }) true
      = { result := .ok { introspection := .bool true },
          state := { _schema := some { introspection := .bool true } },
          introspected := true }) :=
  ⟨(schema_cache_lifecycle { _schema := some { introspection := .null } }
      (.ok { introspection := .bool true }) false).1
      { introspection := .null } (by decide) (by decide),
   ((schema_cache_lifecycle { _schema := some { introspection := .null } }
      (.ok { introspection := .bool true }) true).2.1
      (Or.inr (by decide))).2 { introspection := .bool true } (by decide)⟩

/-- C9 counterexample: the claim fails on the code in two ways. With
`method=""` (neither `post` nor `get`) the falsy string silently falls back
to the client default and no configuration error is raised; and with
`method="put"` on a validating request and an empty schema cache, the
`GraphQLClientException` is indeed raised, but only after validation has
already introspected the endpoint over the network. -/
theorem query_invalid_method_counterexample :
    ("" ≠ "post" ∧ "" ≠ "get"
      ∧ (GraphQLClient.query [] "post" { _schema := none }
          { introspection := .null } (fun s => .ok { source := s })
          (fun _ _ => []) (.inl "q") (some "") none none none).outcome
        = .sent "post" [("query", .str "q"), ("variables", .obj [])]
            { query := "q", headers := [] })
    ∧ (GraphQLClient.query [] "post" { _schema := none }
        { introspection := .null } (fun s => .ok { source := s })
        (fun _ _ => []) (.inl "q") (some "put") none none none)
      = { introspectedDuringValidation := true,
          outcome := .invalidMethod "put" } := by decide

/-- C9 (amended): when the effective method — the `method` argument if
non-empty, else the client default — is neither `post` nor `get` and
validation succeeds, `query` raises `GraphQLClientException`; the check runs
after validation (which may introspect the schema over the network on a
cache miss) but always before the request is dispatched: a dispatched
request always uses `post` or `get`. -/
theorem query_invalid_method_raises (clientHeaders : List (String × String))
    (clientMethod : String) (st : ClientState) (fresh : Schema)
    (parse : String → Except String DocumentAST)
    (validator : Schema → DocumentAST → List String)
    (request : String ⊕ GraphQLRequest) (method : Option String)
    (headers : Option (List (String × String))) (operation : Option String)
    (vars? : Option (List (String × Json))) :
    ((GraphQLClient.validate (st._schema.getD fresh) parse validator
        (GraphQLClient._prepare_request clientHeaders request operation
          vars? headers) none false).outcome = .ok →
      pyOrStrD method clientMethod ≠ "post" →
      pyOrStrD method clientMethod ≠ "get" →
      (GraphQLClient.query clientHeaders clientMethod st fresh parse
          validator request method headers operation vars?).outcome
        = .invalidMethod (pyOrStrD method clientMethod))
    ∧ (∀ m p rq,
        (GraphQLClient.query clientHeaders clientMethod st fresh parse
            validator request method headers operation vars?).outcome
          = .sent m p rq →
        m = "post" ∨ m = "get") := by
  constructor
  · intro hok hnp hng
    simp only [GraphQLClient.query]
    rw [hok]
    simp [hnp, hng]
  · intro m p rq hsent
    simp only [GraphQLClient.query] at hsent
    cases ho : (GraphQLClient.validate (st._schema.getD fresh) parse
        validator (GraphQLClient._prepare_request clientHeaders request
          operation vars? headers) none false).outcome with
    | ok =>
        rw [ho] at hsent
        by_cases h1 : pyOrStrD method clientMethod = "post"
        · simp [h1] at hsent
          exact Or.inl hsent.1.symm
        · by_cases h2 : pyOrStrD method clientMethod = "get"
          · simp [h1, h2] at hsent
            exact Or.inr hsent.1.symm
          · simp [h1, h2] at hsent
    | syntaxError e =>
        rw [ho] at hsent
        simp at hsent
    | validationError e =>
        rw [ho] at hsent
        simp at hsent

/-- Witness for C9 (amended) at a concrete invalid method with a cached
schema. -/
theorem query_invalid_method_raises_witness :
    (GraphQLClient.query [] "post"
        { _schema := some { introspection := .null } }
        { introspection := .null } (fun s => .ok { source := s })
        (fun _ _ => []) (.inl "q") (some "put") none none none).outcome
      = .invalidMethod "put" :=
  (query_invalid_method_raises [] "post"
      { _schema := some { introspection := .null } }
      { introspection := .null } (fun s => .ok { source := s })
      (fun _ _ => []) (.inl "q") (some "put") none none none).1
    (by decide) (by decide) (by decide)

/-- A successful dictionary lookup exhibits a member. -/
theorem dlookup_mem {α : Type} (l : List (String × α)) (k : String) (v : α)
    (h : dlookup l k = some v) : (k, v) ∈ l := by
  induction l with
  | nil => exact absurd h (by simp [dlookup])
  | cons hd tl ih =>
      by_cases hk : hd.1 = k
      · cases hd with
        | mk k0 v0 =>
            simp only at hk
            subst hk
            simp [dlookup] at h
            subst h
            exact List.mem_cons_self _ _
      · cases hd with
        | mk k0 v0 =>
            simp only at hk
            simp [dlookup, hk] at h
            exact List.mem_cons_of_mem _ (ih h)

/-- Every value in `\x7b**a, **b\x7d` comes from a binding of `a` or of
`b`. -/
theorem pyUpdate_mem_values {α : Type} (a b : List (String × α))
    (p : String × α) (h : p ∈ pyUpdate a b) :
    (∃ k1, (k1, p.2) ∈ a) ∨ (∃ k1, (k1, p.2) ∈ b) := by
  unfold pyUpdate at h
  rcases List.mem_append.mp h with h | h
  · rcases List.mem_map.mp h with ⟨q, hq, hpq⟩
    cases hb : dlookup b q.1 with
    | some v =>
        rw [hb] at hpq
        right
        refine ⟨q.1, ?_⟩
        have : p.2 = v := by rw [← hpq]
        rw [this]
        exact dlookup_mem b q.1 v hb
    | none =>
        rw [hb] at hpq
        left
        refine ⟨q.1, ?_⟩
        rw [← hpq]
        exact hq
  · right
    exact ⟨p.1, List.mem_of_mem_filter h⟩

/-- The nested-dictionary store only grows during a deep copy. -/
theorem Mut.deepcopyEntries_extends (d : Mut.VarsDict)
    (flats : List Mut.FlatDict) :
    ∃ ext, (Mut.deepcopyEntries flats d).1 = flats ++ ext := by
  induction d generalizing flats with
  | nil => exact ⟨[], by simp [Mut.deepcopyEntries]⟩
  | cons hd rest ih =>
      obtain ⟨k, v⟩ := hd
      cases v with
      | prim j => exact ih flats
      | ref f =>
          obtain ⟨ext, hext⟩ := ih (flats ++ [flats.getD f []])
          refine ⟨[flats.getD f []] ++ ext, ?_⟩
          simp only [Mut.deepcopyEntries]
          rw [hext, List.append_assoc]

/-- Every reference produced by a deep copy points at a freshly allocated
nested dictionary. -/
theorem Mut.deepcopyEntries_fresh (d : Mut.VarsDict)
    (flats : List Mut.FlatDict) (k : String) (f : Nat)
    (h : (k, Mut.PyVal.ref f) ∈ (Mut.deepcopyEntries flats d).2) :
    flats.length ≤ f := by
  induction d generalizing flats with
  | nil => exact absurd h (by simp [Mut.deepcopyEntries])
  | cons hd rest ih =>
      obtain ⟨k0, v0⟩ := hd
      cases v0 with
      | prim j =>
          simp only [Mut.deepcopyEntries, List.mem_cons] at h
          rcases h with h | h
          · exact absurd h (by simp)
          · exact ih flats h
      | ref f0 =>
          simp only [Mut.deepcopyEntries, List.mem_cons] at h
          rcases h with h | h
          · have : f = flats.length := by
              have := congrArg Prod.snd h
              simp at this
              exact this.symm ▸ rfl
            omega
          · have := ih (flats ++ [flats.getD f0 []]) h
            simp at this
            omega

/-- C7 counterexample: the claim fails on the code. The override's values are
shared, not copied, so when an override value aliases a nested structure of
the original's variables, mutating that nested structure of the original
after the call does change the resulting descriptor's variables. Here the
original's variables are `\x7b"b": X\x7d` with `X = \x7b"x": "1"\x7d`, the
override is `\x7b"a": X\x7d`, and mutating `X` after `copy` changes the
copy's entry `"a"`. -/
theorem copy_deepcopy_counterexample :
    let σ : Mut.Store :=
      { tops := [[("b", .ref 0)], [("a", .ref 0)]],
        flats := [[("x", .str "1")]] }
    let r : Mut.GraphQLRequest := { query := "q", vars := 0 }
    let res := Mut.GraphQLRequest.copy σ r none none none (some 1)
    ("b", Mut.PyVal.ref 0) ∈ σ.getTop r.vars
    ∧ Mut.resolveVars (res.1.setFlat 0 [("x", .str "2")]) res.2.vars
      ≠ Mut.resolveVars res.1 res.2.vars := by decide

/-- C7 (amended): `copy` never mutates any pre-existing object (every
existing top-level and nested dictionary is unchanged, so in particular
every field of the original descriptor is untouched), and the original's
variables are deep-copied: mutating any pre-existing top-level dictionary
(the override variables map, the original's variables map) after the call,
or any pre-existing nested dictionary that no override value aliases, does
not affect the resulting descriptor's variables. -/
theorem copy_no_mutation_and_shielded_deepcopy (σ : Mut.Store)
    (r : Mut.GraphQLRequest)
    (headers headers_fallback : Option (List (String × String)))
    (operation : Option String) (vars? : Option Nat) :
    let res := Mut.GraphQLRequest.copy σ r headers headers_fallback
      operation vars?
    (∀ i, i < σ.tops.length → res.1.getTop i = σ.getTop i)
    ∧ (∀ f, f < σ.flats.length → res.1.getFlat f = σ.getFlat f)
    ∧ (∀ i d, i < σ.tops.length →
        Mut.resolveVars (res.1.setTop i d) res.2.vars
          = Mut.resolveVars res.1 res.2.vars)
    ∧ (∀ f d, f < σ.flats.length →
        Mut.PyVal.ref f ∉ (Mut.overrideEntries σ vars?).map Prod.snd →
        Mut.resolveVars (res.1.setFlat f d) res.2.vars
          = Mut.resolveVars res.1 res.2.vars) := by
  intro res
  obtain ⟨ext, hext⟩ :=
    Mut.deepcopyEntries_extends (σ.getTop r.vars) σ.flats
  refine ⟨?_, ?_, ?_, ?_⟩
  · intro i hi
    show (σ.tops ++
        [pyUpdate (Mut.deepcopyEntries σ.flats (σ.getTop r.vars)).2
          (Mut.overrideEntries σ vars?)]).getD i [] = σ.tops.getD i []
    exact List.getD_append _ _ _ _ hi
  · intro f hf
    show (Mut.deepcopyEntries σ.flats (σ.getTop r.vars)).1.getD f []
      = σ.flats.getD f []
    rw [hext]
    exact List.getD_append _ _ _ _ hf
  · intro i d hi
    show ((σ.tops ++
        [pyUpdate (Mut.deepcopyEntries σ.flats (σ.getTop r.vars)).2
          (Mut.overrideEntries σ vars?)]).set i d |>.getD
            σ.tops.length []).map _
      = ((σ.tops ++
        [pyUpdate (Mut.deepcopyEntries σ.flats (σ.getTop r.vars)).2
          (Mut.overrideEntries σ vars?)]).getD σ.tops.length []).map _
    have hne : i ≠ σ.tops.length := Nat.ne_of_lt hi
    rw [List.getD_eq_getElem?_getD, List.getElem?_set_ne hne,
      ← List.getD_eq_getElem?_getD]
    rfl
  · intro f d hf hna
    show ((σ.tops ++
        [pyUpdate (Mut.deepcopyEntries σ.flats (σ.getTop r.vars)).2
          (Mut.overrideEntries σ vars?)]).getD σ.tops.length []).map
        (fun p => (p.1, Mut.resolveVal
          ((Mut.deepcopyEntries σ.flats (σ.getTop r.vars)).1.set f d) p.2))
      = ((σ.tops ++
        [pyUpdate (Mut.deepcopyEntries σ.flats (σ.getTop r.vars)).2
          (Mut.overrideEntries σ vars?)]).getD σ.tops.length []).map
        (fun p => (p.1, Mut.resolveVal
          (Mut.deepcopyEntries σ.flats (σ.getTop r.vars)).1 p.2))
    apply List.map_congr_left
    intro p hp
    have hp' : p ∈ pyUpdate
        (Mut.deepcopyEntries σ.flats (σ.getTop r.vars)).2
        (Mut.overrideEntries σ vars?) := by
      have : (σ.tops ++
          [pyUpdate (Mut.deepcopyEntries σ.flats (σ.getTop r.vars)).2
            (Mut.overrideEntries σ vars?)]).getD σ.tops.length []
          = pyUpdate (Mut.deepcopyEntries σ.flats (σ.getTop r.vars)).2
            (Mut.overrideEntries σ vars?) := by
        rw [List.getD_eq_getElem?_getD, List.getElem?_append_right
          (Nat.le_refl _)]
        simp
      rw [this] at hp
      exact hp
    cases hv : p.2 with
    | prim j => simp [Mut.resolveVal]
    | ref f0 =>
        have hne : f0 ≠ f := by
          rcases pyUpdate_mem_values _ _ p hp' with ⟨k1, hk1⟩ | ⟨k1, hk1⟩
          · rw [hv] at hk1
            have := Mut.deepcopyEntries_fresh (σ.getTop r.vars) σ.flats
              k1 f0 hk1
            omega
          · rw [hv] at hk1
            intro hc
            exact hna (List.mem_map.mpr
              ⟨(k1, Mut.PyVal.ref f0), hk1, by simp [hc]⟩)
        simp only [Mut.resolveVal]
        rw [List.getD_eq_getElem?_getD, List.getElem?_set_ne
          (fun hc => hne hc.symm), ← List.getD_eq_getElem?_getD]

/-- Witness for C7 (amended): a concrete store where the override does not
alias the original's nested dictionary; mutating that nested dictionary
after the call leaves the copy's variables unchanged. -/
theorem copy_no_mutation_and_shielded_deepcopy_witness :
    let σ : Mut.Store :=
      { tops := [[("b", .ref 0)], [("a", .prim (.str "z"))]],
        flats := [[("x", .str "1")]] }
    let r : Mut.GraphQLRequest := { query := "q", vars := 0 }
    let res := Mut.GraphQLRequest.copy σ r none none none (some 1)
    Mut.resolveVars (res.1.setFlat 0 [("x", .str "2")]) res.2.vars
      = Mut.resolveVars res.1 res.2.vars :=
  (copy_no_mutation_and_shielded_deepcopy
      { tops := [[("b", .ref 0)], [("a", .prim (.str "z"))]],
        flats := [[("x", .str "1")]] }
      { query := "q", vars := 0 } none none none (some 1)).2.2.2
    0 [("x", .str "2")] (by decide) (by decide)

/-- C8 counterexample: the claim fails on the code in three ways. The
dynamic-dataclass `GraphQLError.load` raises `TypeError` when an unknown
server-supplied field name is not a valid Python identifier (here
`my-field`, rejected by `str.isidentifier()` in full Python as well as in
the ASCII fragment used to instantiate this run); the bucket-based loader
does not populate the known field `path` (it is missing from
`BASE_ERROR_FIELDS`, so it lands in the `_unknown_fields` bucket and the
record's `path` stays `None`); and the bucket-based loader raises
`TypeError` when the error carries a `null` (or other non-dict) `extensions`
value, because the item assignment performed on the result of `setdefault`
fails. -/
theorem error_unknown_fields_counterexample :
    (GraphQLError.load isPyIdentifier (fun s => pyKeywords.contains s)
        [("message", .str "m"), ("my-field", .str "v")]
      = .error "TypeError: field names must be valid identifiers")
    ∧ (GraphQLResponse.loadErrorWithBucket
        [("message", .str "m"), ("path", .arr [.str "a"])]
      = .ok { extensions :=
                .obj [("_unknown_fields", .obj [("path", .arr [.str "a"])])],
              locations := .null, message := .str "m", path := .null })
    ∧ (GraphQLResponse.loadErrorWithBucket
        [("message", .str "m"), ("extensions", .null), ("custom", .str "v")]
      = .error "TypeError: item assignment on a non-dict extensions value")
    := by
  decide

/-- C8 (amended): loading a server-supplied error object with fields outside
the known set succeeds and preserves every unknown field accessibly, with
the following provisos forced by the code. Dynamic variant: construction
succeeds — with the known fields populated and the unknown fields attached —
exactly when every unknown field name passes the Python runtime's
`str.isidentifier()` check and is not a keyword (both runtime predicates are
universally quantified collaborators here), and raises `TypeError`
otherwise. Bucket variant: when the error's `extensions` value, if present,
is a dictionary, loading succeeds, `message` and `locations` are populated
from the error object, and every field outside `BASE_ERROR_FIELDS` (which
omits `path`) is preserved under the `_unknown_fields` key of `extensions`;
when the error carries a non-dict `extensions` value, loading raises
`TypeError`. -/
theorem error_unknown_fields_tolerance (isidentifier iskeyword : String → Bool)
    (data error : List (String × Json)) :
    (((data.map Prod.fst).filter
        (fun k => !graphQLErrorFieldNames.contains k)).all
        (fun k => isidentifier k && !iskeyword k) = true →
      GraphQLError.load isidentifier iskeyword data
        = .ok { base := GraphQLError.fromData data,
                extra := data.filter
                  (fun p => !graphQLErrorFieldNames.contains p.1) }
      ∧ (∀ k v, k ∉ graphQLErrorFieldNames →
          dlookup data k = some v →
          dlookup (data.filter
            (fun p => !graphQLErrorFieldNames.contains p.1)) k = some v))
    ∧ (((data.map Prod.fst).filter
        (fun k => !graphQLErrorFieldNames.contains k)).all
        (fun k => isidentifier k && !iskeyword k) = false →
      GraphQLError.load isidentifier iskeyword data
        = .error "TypeError: field names must be valid identifiers")
    ∧ (dlookup error "extensions" = none
        ∨ (∃ kvs, dlookup error "extensions" = some (.obj kvs)) →
      ∃ e, GraphQLResponse.loadErrorWithBucket error = .ok e
        ∧ e.message = (dlookup error "message").getD .null
        ∧ e.locations = (dlookup error "locations").getD .null
        ∧ (∀ k v, k ∉ BASE_ERROR_FIELDS →
            dlookup error k = some v →
            ∃ bucketed unknown, e.extensions = .obj bucketed
              ∧ dlookup bucketed "_unknown_fields" = some (.obj unknown)
              ∧ dlookup unknown k = some v))
    ∧ (∀ j, dlookup error "extensions" = some j → (∀ kvs, j ≠ .obj kvs) →
        GraphQLResponse.loadErrorWithBucket error
          = .error "TypeError: item assignment on a non-dict extensions value")
    := by
  have hfe : dlookup (error.filter
      (fun p => BASE_ERROR_FIELDS.contains p.1)) "extensions"
      = dlookup error "extensions" :=
    dlookup_filter_pos error (fun x => BASE_ERROR_FIELDS.contains x)
      "extensions" (by decide)
  refine ⟨?_, ?_, ?_, ?_⟩
  · intro hvalid
    constructor
    · simp only [GraphQLError.load]
      rw [hvalid]
      simp
    · intro k v hk hv
      rw [dlookup_filter_pos data
        (fun x => !graphQLErrorFieldNames.contains x) k (by simp [hk])]
      exact hv
  · intro hinvalid
    simp only [GraphQLError.load]
    rw [hinvalid]
    simp
  · intro hx
    rcases hx with hx | ⟨kvs, hx⟩
    · have hload : GraphQLResponse.loadErrorWithBucket error
          = .ok { extensions := .obj (pyUpdate []
                    [("_unknown_fields", .obj (error.filter
                      (fun p => !BASE_ERROR_FIELDS.contains p.1)))]),
                  locations := (dlookup (error.filter
                    (fun p => BASE_ERROR_FIELDS.contains p.1))
                    "locations").getD .null,
                  message := (dlookup (error.filter
                    (fun p => BASE_ERROR_FIELDS.contains p.1))
                    "message").getD .null,
                  path := .null } := by
        simp only [GraphQLResponse.loadErrorWithBucket]
        rw [hfe, hx]
      refine ⟨_, hload, ?_, ?_, ?_⟩
      · show (dlookup (error.filter
            (fun p => BASE_ERROR_FIELDS.contains p.1)) "message").getD .null
          = _
        rw [dlookup_filter_pos error
          (fun x => BASE_ERROR_FIELDS.contains x) "message" (by decide)]
      · show (dlookup (error.filter
            (fun p => BASE_ERROR_FIELDS.contains p.1))
            "locations").getD .null = _
        rw [dlookup_filter_pos error
          (fun x => BASE_ERROR_FIELDS.contains x) "locations" (by decide)]
      · intro k v hk hv
        refine ⟨_, error.filter (fun p => !BASE_ERROR_FIELDS.contains p.1),
          rfl, ?_, ?_⟩
        · rw [dlookup_pyUpdate]
          simp [dlookup, pyOpt]
        · rw [dlookup_filter_pos error
            (fun x => !BASE_ERROR_FIELDS.contains x) k (by simp [hk])]
          exact hv
    · have hload : GraphQLResponse.loadErrorWithBucket error
          = .ok { extensions := .obj (pyUpdate kvs
                    [("_unknown_fields", .obj (error.filter
                      (fun p => !BASE_ERROR_FIELDS.contains p.1)))]),
                  locations := (dlookup (error.filter
                    (fun p => BASE_ERROR_FIELDS.contains p.1))
                    "locations").getD .null,
                  message := (dlookup (error.filter
                    (fun p => BASE_ERROR_FIELDS.contains p.1))
                    "message").getD .null,
                  path := .null } := by
        simp only [GraphQLResponse.loadErrorWithBucket]
        rw [hfe, hx]
      refine ⟨_, hload, ?_, ?_, ?_⟩
      · show (dlookup (error.filter
            (fun p => BASE_ERROR_FIELDS.contains p.1)) "message").getD .null
          = _
        rw [dlookup_filter_pos error
          (fun x => BASE_ERROR_FIELDS.contains x) "message" (by decide)]
      · show (dlookup (error.filter
            (fun p => BASE_ERROR_FIELDS.contains p.1))
            "locations").getD .null = _
        rw [dlookup_filter_pos error
          (fun x => BASE_ERROR_FIELDS.contains x) "locations" (by decide)]
      · intro k v hk hv
        refine ⟨_, error.filter (fun p => !BASE_ERROR_FIELDS.contains p.1),
          rfl, ?_, ?_⟩
        · rw [dlookup_pyUpdate]
          simp [dlookup, pyOpt]
        · rw [dlookup_filter_pos error
            (fun x => !BASE_ERROR_FIELDS.contains x) k (by simp [hk])]
          exact hv
  · intro j hx hno
    simp only [GraphQLResponse.loadErrorWithBucket]
    rw [hfe, hx]
    cases j with
    | obj kvs => exact absurd rfl (hno kvs)
    | str a => rfl
    | num a => rfl
    | bool a => rfl
    | null => rfl
    | arr a => rfl

/-- Witness for C8 (amended) at the concrete error object
`\x7b"message": "m", "custom": "v"\x7d` for both loader variants, with the
dynamic variant's runtime predicates instantiated by the ASCII identifier
check and the keyword list (exact for these ASCII field names). -/
theorem error_unknown_fields_tolerance_witness :
    (GraphQLError.load isPyIdentifier (fun s => pyKeywords.contains s)
        [("message", .str "m"), ("custom", .str "v")]
      = .ok { base := { message := .str "m" },
              extra := [("custom", .str "v")] })
    ∧ (∃ e, GraphQLResponse.loadErrorWithBucket
          [("message", .str "m"), ("custom", .str "v")] = .ok e
        ∧ ∃ bucketed unknown, e.extensions = .obj bucketed
          ∧ dlookup bucketed "_unknown_fields" = some (.obj unknown)
          ∧ dlookup unknown "custom" = some (.str "v")) := by
  constructor
  · exact ((error_unknown_fields_tolerance isPyIdentifier
      (fun s => pyKeywords.contains s)
      [("message", .str "m"), ("custom", .str "v")]
      [("message", .str "m"), ("custom", .str "v")]).1
      (by decide)).1.trans (by decide)
  · obtain ⟨e, h1, _, _, h4⟩ := (error_unknown_fields_tolerance
      isPyIdentifier (fun s => pyKeywords.contains s)
      [("message", .str "m"), ("custom", .str "v")]
      [("message", .str "m"), ("custom", .str "v")]).2.2.1
      (Or.inl (by decide))
    exact ⟨e, h1, h4 "custom" (.str "v") (by decide) (by decide)⟩
